import Mathlib

/-!
Shallow embedding of the core of the `maze` terminal synthesizer:
the parameter/module model (`src/modules/types.rs`), the audio graph
(`src/audio/graph.rs`), the custom DSP nodes (`src/audio/nodes.rs`) and
the step sequencer (`src/modules/sequencer.rs`).

Modelling conventions:
* `f32`/`f64` values are modelled as exact rationals (`ℚ`); only the
  oscillator, whose output involves `sin`, is modelled over `ℝ`.
* `Uuid` module identifiers are modelled as `ℕ`.
* `HashMap<Uuid, AudioGraphNode>` is modelled as an association list with
  the usual find/insert/remove operations.
* Functions taking `&mut self` are modelled as state-passing functions;
  fallible ones return the new state together with an `Option String`
  error (mirroring `anyhow::Result`).
* `rand::random::<f32>()` draws are passed in as an explicit oracle
  argument.
-/

namespace Maze

/-- Rust `f32::clamp(self, min, max)` / `f64::clamp`: if below `lo` the
result is `lo`, if above `hi` it is `hi`, otherwise the value itself. -/
def rustClamp (x lo hi : ℚ) : ℚ :=
  if x < lo then lo else if x > hi then hi else x

/-- Rust `as usize` on a nonnegative float: truncation toward zero
(saturating at zero for negative inputs). -/
def asUsize (q : ℚ) : ℕ := (⌊max q 0⌋).toNat

/-- Rust `as i32` on a float: truncation toward zero. -/
def asI32 (q : ℚ) : ℤ := if 0 ≤ q then ⌊q⌋ else -⌊-q⌋

/-- Model of `ModuleParameter` from `src/modules/types.rs`: a named, bounded scalar. -/
structure ModuleParameter where
  name : String
  value : ℚ
  min : ℚ
  max : ℚ
  step : ℚ
deriving DecidableEq, Repr

namespace ModuleParameter

/-- Model of `ModuleParameter::new`: the step defaults to `(max - min) / 100`. -/
def new (name : String) (value min max : ℚ) : ModuleParameter :=
  { name := name, value := value, min := min, max := max
    step := (max - min) / 100 }

/-- Model of `ModuleParameter::adjust`: the delta is scaled by `(max - min)` and the
result clamped into `[min, max]`. -/
def adjust (p : ModuleParameter) (delta : ℚ) : ModuleParameter :=
  { p with value := rustClamp (p.value + delta * (p.max - p.min)) p.min p.max }

/-- Model of `ModuleParameter::normalized`: `(value - min) / (max - min)`. -/
def normalized (p : ModuleParameter) : ℚ :=
  (p.value - p.min) / (p.max - p.min)

end ModuleParameter

/-- Model of `ModuleType` from `src/modules/types.rs`. -/
inductive ModuleType where
  | Oscillator
  | Sequencer
  | Filter
  | Reverb
  | Delay
  | Output
deriving DecidableEq, Repr

/-- Model of `AudioModule` from `src/modules/types.rs`: a module descriptor. -/
structure AudioModule where
  id : ℕ
  module_type : ModuleType
  name : String
  parameters : List ModuleParameter
  input_count : ℕ
  output_count : ℕ
  position : ℕ × ℕ
  enabled : Bool
deriving DecidableEq, Repr

namespace AudioModule

/-- Model of `AudioModule::oscillator_params`. -/
def oscillator_params : List ModuleParameter :=
  [ModuleParameter.new "Frequency" 440 20 20000,
   ModuleParameter.new "Amplitude" (1/2) 0 1,
   ModuleParameter.new "Waveform" 0 0 3]

/-- Model of `AudioModule::filter_params`. -/
def filter_params : List ModuleParameter :=
  [ModuleParameter.new "Cutoff" 1000 20 20000,
   ModuleParameter.new "Resonance" (1/2) 0 1,
   ModuleParameter.new "Type" 0 0 2]

/-- Model of `AudioModule::reverb_params`. -/
def reverb_params : List ModuleParameter :=
  [ModuleParameter.new "Room Size" (1/2) 0 1,
   ModuleParameter.new "Damping" (1/2) 0 1,
   ModuleParameter.new "Wet" (3/10) 0 1]

/-- Model of `AudioModule::delay_params`. -/
def delay_params : List ModuleParameter :=
  [ModuleParameter.new "Time" (1/4) (1/100) 2,
   ModuleParameter.new "Feedback" (3/10) 0 (19/20),
   ModuleParameter.new "Wet" (3/10) 0 1]

/-- Model of `AudioModule::output_params`. -/
def output_params : List ModuleParameter :=
  [ModuleParameter.new "Volume" (7/10) 0 1,
   ModuleParameter.new "Pan" (1/2) 0 1]

/-- Model of `AudioModule::sequencer_params`. -/
def sequencer_params : List ModuleParameter :=
  [ModuleParameter.new "BPM" 120 60 200,
   ModuleParameter.new "Steps" 16 4 32,
   ModuleParameter.new "Gate" (1/2) (1/10) 1]

/-- Model of `AudioModule::new` (the fresh `Uuid` is passed in explicitly). -/
def new (id : ℕ) (module_type : ModuleType) (name : String) : AudioModule :=
  let ioParams : ℕ × ℕ × List ModuleParameter :=
    match module_type with
    | .Oscillator => (0, 1, oscillator_params)
    | .Filter => (1, 1, filter_params)
    | .Reverb => (1, 1, reverb_params)
    | .Delay => (1, 1, delay_params)
    | .Output => (2, 0, output_params)
    | .Sequencer => (0, 1, sequencer_params)
  { id := id, module_type := module_type, name := name
    parameters := ioParams.2.2
    input_count := ioParams.1, output_count := ioParams.2.1
    position := (0, 0), enabled := true }

/-- Model of `AudioModule::get_parameter`: first parameter with the given name. -/
def get_parameter (m : AudioModule) (name : String) : Option ModuleParameter :=
  m.parameters.find? (fun p => p.name == name)

/-- Model of `AudioModule::get_parameter_value`: the value of the first parameter
with the given name, or `0.0` when no parameter matches. -/
def get_parameter_value (m : AudioModule) (name : String) : ℚ :=
  ((m.get_parameter name).map (fun p => p.value)).getD 0

end AudioModule

/-- Model of `Connection` from `src/modules/types.rs`: a directed link from an
output port of one module to an input port of another. -/
structure Connection where
  from_module : ℕ
  from_output : ℕ
  to_module : ℕ
  to_input : ℕ
deriving DecidableEq, Repr

/-- The `fundsp` unit expressions built by `AudioGraph::create_audio_unit`
(`src/audio/graph.rs`), modelled as their defining parameters together
with the internal per-sample DSP state those units carry (oscillator
phase, filter state variables, delay-line contents).  A freshly
constructed unit starts with that internal state at its initial (zero)
value. -/
inductive AudioUnit64 where
  /-- `sine_hz/saw_hz/square_hz/triangle_hz(frequency) * amplitude`;
  `phase` is the internal phase state of the oscillator, `0` when fresh. -/
  | osc (frequency amplitude : ℚ) (waveform : ℤ) (phase : ℚ)
  /-- `lowpass_hz/highpass_hz/bandpass_hz(cutoff, resonance)`; the two
  state variables are `0` when fresh. -/
  | filterU (cutoff resonance : ℚ) (filter_type : ℤ) (low band : ℚ)
  /-- the reverb expression over `pass()` and three `delay(...)` lines;
  `lines` holds the delay-line contents, empty (all-zero) when fresh. -/
  | reverbU (room_size damping wet : ℚ) (lines : List ℚ)
  /-- `pass() * (1 - wet) + delay(time) * feedback * wet`; `line` holds
  the delay-line contents, empty (all-zero) when fresh. -/
  | delayU (time feedback wet : ℚ) (line : List ℚ)
  /-- `(pass() * volume * (1 - pan)) | (pass() * volume * pan)`. -/
  | outputU (volume pan : ℚ)
  /-- `dc(0.0)` (the `Sequencer` placeholder). -/
  | dcU (value : ℚ)
deriving DecidableEq, Repr

/-- Model of `AudioGraphNode` from `src/audio/graph.rs`. -/
structure AudioGraphNode where
  module_id : ℕ
  audio_unit : AudioUnit64
  input_connections : List (Option ℕ)
  output_connections : List ℕ
deriving DecidableEq, Repr

/-- The nodes association list modelling `HashMap<Uuid, AudioGraphNode>`. -/
abbrev NodeMap := List (ℕ × AudioGraphNode)

namespace NodeMap

/-- Model of `HashMap::contains_key`. -/
def containsKey (l : NodeMap) (k : ℕ) : Bool := l.any (fun e => e.1 == k)

/-- Model of `HashMap::get`. -/
def getValue (l : NodeMap) (k : ℕ) : Option AudioGraphNode :=
  (l.find? (fun e => e.1 == k)).map (fun e => e.2)

/-- Model of `HashMap::get_mut` followed by an in-place update: every entry with
the key (there is at most one) is updated. -/
def updateValue : NodeMap → ℕ → (AudioGraphNode → AudioGraphNode) → NodeMap
  | [], _, _ => []
  | e :: t, k, f => (if e.1 = k then (e.1, f e.2) else e) :: updateValue t k f

/-- Model of `HashMap::insert`: replaces the entry when the key is present,
appends it otherwise. -/
def insert (l : NodeMap) (k : ℕ) (v : AudioGraphNode) : NodeMap :=
  if l.containsKey k then l.map (fun e => if e.1 == k then (k, v) else e)
  else l ++ [(k, v)]

/-- Model of `HashMap::remove`. -/
def remove (l : NodeMap) (k : ℕ) : NodeMap := l.filter (fun e => ¬ e.1 = k)

end NodeMap

/-- Model of `AudioGraph` from `src/audio/graph.rs`. -/
structure AudioGraph where
  nodes : NodeMap
  connections : List Connection
  sample_rate : ℚ
  output_node : Option ℕ
deriving DecidableEq, Repr

namespace AudioGraph

/-- Model of `AudioGraph::new`. -/
def new (sample_rate : ℚ) : AudioGraph :=
  { nodes := [], connections := [], sample_rate := sample_rate
    output_node := none }

/-- Model of `AudioGraph::create_audio_unit`: builds a fresh `fundsp` unit from the
current parameter values of the module; internal DSP state starts at its
initial (zero) value. -/
def create_audio_unit (m : AudioModule) : AudioUnit64 :=
  match m.module_type with
  | .Oscillator =>
      .osc (m.get_parameter_value "Frequency")
        (m.get_parameter_value "Amplitude")
        (asI32 (m.get_parameter_value "Waveform")) 0
  | .Filter =>
      .filterU (m.get_parameter_value "Cutoff")
        (m.get_parameter_value "Resonance")
        (asI32 (m.get_parameter_value "Type")) 0 0
  | .Reverb =>
      .reverbU (m.get_parameter_value "Room Size")
        (m.get_parameter_value "Damping")
        (m.get_parameter_value "Wet") []
  | .Delay =>
      .delayU (m.get_parameter_value "Time")
        (m.get_parameter_value "Feedback")
        (m.get_parameter_value "Wet") []
  | .Output =>
      .outputU (m.get_parameter_value "Volume")
        (m.get_parameter_value "Pan")
  | .Sequencer => .dcU 0

/-- Model of `AudioGraph::add_module`. -/
def add_module (g : AudioGraph) (m : AudioModule) : AudioGraph :=
  let node : AudioGraphNode :=
    { module_id := m.id
      audio_unit := create_audio_unit m
      input_connections := List.replicate m.input_count none
      output_connections := [] }
  { g with
    nodes := g.nodes.insert m.id node
    output_node :=
      if m.module_type = ModuleType.Output then some m.id else g.output_node }

/-- Model of `AudioGraph::rebuild_connections`: clears the resolved
adjacency of every node, then refills it from the connection list.  Note that the
output side compares `from_output` against the length of the
just-cleared, growing `output_connections` vector. -/
def rebuild_connections (g : AudioGraph) : AudioGraph :=
  let cleared : NodeMap := g.nodes.map (fun e =>
    (e.1, { e.2 with
            input_connections := e.2.input_connections.map (fun _ => none)
            output_connections := ([] : List ℕ) }))
  let rebuilt : NodeMap := g.connections.foldl (fun ns conn =>
    let ns := ns.updateValue conn.from_module (fun n =>
      if conn.from_output < n.output_connections.length then
        { n with output_connections := n.output_connections ++ [conn.to_module] }
      else n)
    ns.updateValue conn.to_module (fun n =>
      if conn.to_input < n.input_connections.length then
        { n with input_connections :=
            n.input_connections.set conn.to_input (some conn.from_module) }
      else n)) cleared
  { g with nodes := rebuilt }

/-- The inner `has_path_to` of `AudioGraph::would_create_cycle`: DFS over
`output_connections` with a shared visited set (threaded through the
loop, as the Rust `&mut HashSet` is).  The extra fuel argument bounds the
recursion depth; each level of nesting inserts a fresh node into the
visited set, so `nodes.length + 1` fuel is never exhausted. -/
def has_path_to (g : AudioGraph) :
    ℕ → ℕ → ℕ → List ℕ → Bool × List ℕ
  | 0, _, _, visited => (false, visited)
  | fuel + 1, src, target, visited =>
    if src = target then (true, visited)
    else if src ∈ visited then (false, visited)
    else
      let visited := src :: visited
      match g.nodes.getValue src with
      | none => (false, visited)
      | some node =>
        node.output_connections.foldl (fun acc output_id =>
          if acc.1 then acc else has_path_to g fuel output_id target acc.2)
          (false, visited)

/-- Model of `AudioGraph::would_create_cycle`: follow outputs from the
destination back to the source. -/
def would_create_cycle (g : AudioGraph) (new_connection : Connection) : Bool :=
  (has_path_to g (g.nodes.length + 1)
    new_connection.to_module new_connection.from_module []).1

/-- Model of `AudioGraph::add_connection`: returns the post-call graph together
with the error, if any (`anyhow::Result<()>` on `&mut self`). -/
def add_connection (g : AudioGraph) (connection : Connection) :
    AudioGraph × Option String :=
  if ¬ g.nodes.containsKey connection.from_module then
    (g, some ("Source module not found"))
  else if ¬ g.nodes.containsKey connection.to_module then
    (g, some ("Destination module not found"))
  else if g.would_create_cycle connection then
    (g, some ("Connection would create a cycle"))
  else
    (rebuild_connections { g with connections := g.connections ++ [connection] },
     none)

/-- Model of `AudioGraph::remove_connection`. -/
def remove_connection (g : AudioGraph) (from_module from_output to_module to_input : ℕ) :
    AudioGraph :=
  rebuild_connections
    { g with connections := g.connections.filter (fun conn =>
        ¬ (conn.from_module = from_module ∧ conn.from_output = from_output ∧
           conn.to_module = to_module ∧ conn.to_input = to_input)) }

/-- Model of `AudioGraph::remove_module`. -/
def remove_module (g : AudioGraph) (module_id : ℕ) : AudioGraph :=
  rebuild_connections
    { g with
      nodes := (g.nodes.remove module_id)
      connections := g.connections.filter (fun conn =>
        conn.from_module ≠ module_id ∧ conn.to_module ≠ module_id)
      output_node :=
        if g.output_node = some module_id then none else g.output_node }

/-- Model of `AudioGraph::update_module`: if the module has a node, its audio unit
is replaced by a freshly created one. -/
def update_module (g : AudioGraph) (m : AudioModule) : AudioGraph :=
  { g with nodes := g.nodes.updateValue m.id (fun n =>
      { n with audio_unit := create_audio_unit m }) }

end AudioGraph

/-- Model of `MultiOscillator` from `src/audio/nodes.rs`: custom oscillator with
multiple waveforms.  Amounts are real because the sine waveform needs
`sin`. -/
structure MultiOscillator where
  frequency : ℝ
  waveform : ℤ
  phase : ℝ
  sample_rate : ℝ

namespace MultiOscillator

/-- Model of `MultiOscillator::new`: the phase starts at `0.0`. -/
noncomputable def new (frequency : ℝ) (waveform : ℤ) (sample_rate : ℝ) :
    MultiOscillator :=
  { frequency := frequency, waveform := waveform, phase := 0
    sample_rate := sample_rate }

/-- Model of `MultiOscillator::tick`: the phase accumulates
`frequency * TAU / sample_rate`, is reduced by `TAU` once it reaches
`TAU`, and the output is the selected closed-form waveform of the (new)
phase. -/
noncomputable def tick (s : MultiOscillator) : MultiOscillator × ℝ :=
  let phase_increment := s.frequency * (2 * Real.pi) / s.sample_rate
  let phase0 := s.phase + phase_increment
  let phase := if phase0 ≥ 2 * Real.pi then phase0 - 2 * Real.pi else phase0
  let output :=
    if s.waveform = 0 then Real.sin phase
    else if s.waveform = 1 then 2 * (phase / (2 * Real.pi)) - 1
    else if s.waveform = 2 then (if phase < Real.pi then 1 else -1)
    else if s.waveform = 3 then
      (let normalized := phase / (2 * Real.pi)
       if normalized < 1/2 then 4 * normalized - 1 else 3 - 4 * normalized)
    else Real.sin phase
  ({ s with phase := phase }, output)

/-- Model of `MultiOscillator::reset`: the phase returns to `0.0`. -/
noncomputable def reset (s : MultiOscillator) : MultiOscillator :=
  { s with phase := 0 }

end MultiOscillator

/-- The oscillator state after `n` ticks of a sine oscillator started
from reset (`MultiOscillator::new frequency 0 sample_rate`). -/
noncomputable def oscState (frequency sample_rate : ℝ) : ℕ → MultiOscillator
  | 0 => MultiOscillator.new frequency 0 sample_rate
  | n + 1 => (oscState frequency sample_rate n).tick.1

/-- The `n`-th output sample (`n = 0, 1, 2, ...`) of a sine oscillator
started from reset. -/
noncomputable def oscSample (frequency sample_rate : ℝ) (n : ℕ) : ℝ :=
  (oscState frequency sample_rate n).tick.2

/-- Model of `SimpleDelay` from `src/audio/nodes.rs`: circular delay line with
feedback and dry/wet mix. -/
structure SimpleDelay where
  buffer : List ℚ
  write_pos : ℕ
  delay_samples : ℕ
  feedback : ℚ
  wet : ℚ
deriving DecidableEq, Repr

namespace SimpleDelay

/-- Model of `SimpleDelay::new`: `delay_samples = (delay_time * sample_rate) as usize`,
and the buffer holds `max delay_samples 1` zeros. -/
def new (delay_time feedback wet sample_rate : ℚ) : SimpleDelay :=
  let delay_samples := asUsize (delay_time * sample_rate)
  let buffer_size := Nat.max delay_samples 1
  { buffer := List.replicate buffer_size 0
    write_pos := 0
    delay_samples := delay_samples
    feedback := feedback
    wet := wet }

/-- Model of `SimpleDelay::tick`: read the delayed sample, write
`input + delayed * feedback` at the write position, advance it modulo the
buffer length, and mix `input * (1 - wet) + delayed * wet`. -/
def tick (s : SimpleDelay) (input : ℚ) : SimpleDelay × ℚ :=
  let read_pos :=
    if s.write_pos ≥ s.delay_samples then s.write_pos - s.delay_samples
    else s.buffer.length + s.write_pos - s.delay_samples
  let delayed := s.buffer.getD read_pos 0
  let buffer := s.buffer.set s.write_pos (input + delayed * s.feedback)
  let write_pos := (s.write_pos + 1) % buffer.length
  ({ s with buffer := buffer, write_pos := write_pos },
   input * (1 - s.wet) + delayed * s.wet)

end SimpleDelay

/-- The delay state after feeding the first `n` samples of `input`. -/
def delayRun (s : SimpleDelay) (input : ℕ → ℚ) : ℕ → SimpleDelay
  | 0 => s
  | n + 1 => ((delayRun s input n).tick (input n)).1

/-- The `n`-th output sample of the delay fed with `input`. -/
def delayOutput (s : SimpleDelay) (input : ℕ → ℚ) (n : ℕ) : ℚ :=
  ((delayRun s input n).tick (input n)).2

/-- Model of `StereoOutput` from `src/audio/nodes.rs`: stereo panner and output. -/
structure StereoOutput where
  volume : ℚ
  pan : ℚ
deriving DecidableEq, Repr

namespace StereoOutput

/-- Model of `StereoOutput::new`: volume and pan are clamped into `[0, 1]`. -/
def new (volume pan : ℚ) : StereoOutput :=
  { volume := rustClamp volume 0 1, pan := rustClamp pan 0 1 }

/-- Model of `StereoOutput::tick`: `left = input * volume * (1 - pan)` and
`right = input * volume * pan`. -/
def tick (s : StereoOutput) (input : ℚ) : ℚ × ℚ :=
  let input_sample := input * s.volume
  (input_sample * (1 - s.pan), input_sample * s.pan)

end StereoOutput

/-- Model of `SequenceStep` from `src/modules/sequencer.rs`. -/
structure SequenceStep where
  active : Bool
  note : Option ℚ
  velocity : ℚ
  probability : ℚ
  micro_timing : ℚ
deriving DecidableEq, Repr

namespace SequenceStep

/-- Model of `SequenceStep::default`. -/
def default : SequenceStep :=
  { active := false, note := some 60, velocity := 8/10, probability := 1
    micro_timing := 0 }

/-- Model of `SequenceStep::should_trigger`, with the `rand::random::<f32>()` draw
passed in as the oracle `r`. -/
def should_trigger (s : SequenceStep) (r : ℚ) : Bool :=
  s.active && (s.probability ≥ 1 || r < s.probability)

end SequenceStep

/-- Model of `StepResolution` from `src/modules/sequencer.rs`. -/
inductive StepResolution where
  | Sixteenth
  | Eighth
  | Quarter
  | Triplet
deriving DecidableEq, Repr

/-- Model of `StepResolution::steps_per_beat`. -/
def StepResolution.steps_per_beat : StepResolution → ℚ
  | .Sixteenth => 4
  | .Eighth => 2
  | .Quarter => 1
  | .Triplet => 3

/-- Model of `SequenceEvent` from `src/modules/sequencer.rs`. -/
structure SequenceEvent where
  step_index : ℕ
  note : Option ℚ
  velocity : ℚ
  gate_length : ℚ
deriving DecidableEq, Repr

/-- Model of `StepSequencer` from `src/modules/sequencer.rs`. -/
structure StepSequencer where
  steps : List SequenceStep
  current_step : ℕ
  is_playing : Bool
  loop_enabled : Bool
  swing : ℚ
  step_resolution : StepResolution
  samples_per_step : ℚ
  sample_counter : ℚ
  sample_rate : ℚ
deriving DecidableEq, Repr

namespace StepSequencer

/-- Model of `StepSequencer::new`. -/
def new (num_steps : ℕ) (sample_rate : ℚ) : StepSequencer :=
  { steps := List.replicate num_steps SequenceStep.default
    current_step := 0
    is_playing := false
    loop_enabled := true
    swing := 0
    step_resolution := .Sixteenth
    samples_per_step := 0
    sample_counter := 0
    sample_rate := sample_rate }

/-- Model of `StepSequencer::set_bpm`. -/
def set_bpm (s : StepSequencer) (bpm : ℚ) : StepSequencer :=
  let beats_per_second := bpm / 60
  let steps_per_second := beats_per_second * s.step_resolution.steps_per_beat
  { s with samples_per_step := s.sample_rate / steps_per_second }

/-- Model of `StepSequencer::play`. -/
def play (s : StepSequencer) : StepSequencer := { s with is_playing := true }

/-- Model of `StepSequencer::stop`. -/
def stop (s : StepSequencer) : StepSequencer :=
  { s with is_playing := false, current_step := 0, sample_counter := 0 }

/-- Model of `StepSequencer::pause`. -/
def pause (s : StepSequencer) : StepSequencer := { s with is_playing := false }

/-- Model of `StepSequencer::reset`. -/
def reset (s : StepSequencer) : StepSequencer :=
  { s with current_step := 0, sample_counter := 0 }

/-- Model of `StepSequencer::tick`, with the per-step random draw passed in as the
oracle `r`: increments the sample counter, applies swing to odd steps,
and once the counter reaches the effective step length, consumes it,
possibly emits an event, and advances the step (wrapping or stopping at
the end). -/
def tick (s : StepSequencer) (r : ℚ) : StepSequencer × Option SequenceEvent :=
  if ¬ s.is_playing then (s, none)
  else
    let sample_counter := s.sample_counter + 1
    let step_length :=
      if s.swing > 0 ∧ s.current_step % 2 = 1 then
        s.samples_per_step * (1 + s.swing * (1/2))
      else s.samples_per_step
    if sample_counter ≥ step_length then
      let sample_counter := sample_counter - step_length
      let event : Option SequenceEvent :=
        match s.steps.get? s.current_step with
        | some step =>
          if step.should_trigger r then
            some { step_index := s.current_step, note := step.note
                   velocity := step.velocity, gate_length := step_length }
          else none
        | none => none
      let current_step := s.current_step + 1
      if current_step ≥ s.steps.length then
        if s.loop_enabled then
          ({ s with sample_counter := sample_counter, current_step := 0 }, event)
        else
          ({ s with sample_counter := sample_counter
                    current_step := current_step, is_playing := false }, event)
      else
        ({ s with sample_counter := sample_counter
                  current_step := current_step }, event)
    else
      ({ s with sample_counter := sample_counter }, none)

end StepSequencer

/-- Specification-side reachability over a connection set: `connReach
conns fuel a b` is true when `b` can be reached from `a` in at most
`fuel` edges of the connection list (each edge read as
`from_module → to_module`). -/
def connReach (conns : List Connection) : ℕ → ℕ → ℕ → Bool
  | 0, a, b => a == b
  | fuel + 1, a, b =>
    a == b || conns.any (fun c => c.from_module == a && connReach conns fuel c.to_module b)

/-- Specification-side cycle test for a connection set: some connection
closes a directed cycle, i.e. its destination already reaches its source
through the connection set.  `conns.length` edges of fuel suffice for any
simple path. -/
def connHasCycle (conns : List Connection) : Bool :=
  conns.any (fun c => connReach conns conns.length c.to_module c.from_module)

/-- Specification-side observer: the internal phase state of an
oscillator unit. -/
def oscPhase : AudioUnit64 → Option ℚ
  | .osc _ _ _ phase => some phase
  | _ => none

/-- Specification-side effective step length from the sequencer
timing rule: `samples_per_step` multiplied by `1 + swing·0.5` exactly when
the current step index is odd. -/
def effectiveStepLength (s : StepSequencer) : ℚ :=
  s.samples_per_step * (if s.current_step % 2 = 1 then 1 + s.swing * (1/2) else 1)

/-- A delay state with an all-zero buffer of `d` slots, write position
`0`, delay of `d` samples, no feedback and a fully wet mix;
`SimpleDelay.new T 0 1 sr` produces exactly this state when
`(T * sr) as usize = d ≥ 1`. -/
def delayInit (d : ℕ) : SimpleDelay :=
  { buffer := List.replicate d 0, write_pos := 0, delay_samples := d
    feedback := 0, wet := 1 }

/-! Concrete instances used by the claim checks below. -/

/-- A filter module with id `0`. -/
def mF0 : AudioModule := AudioModule.new 0 .Filter "F0"

/-- A filter module with id `1`. -/
def mF1 : AudioModule := AudioModule.new 1 .Filter "F1"

/-- A graph holding the two filter modules. -/
def gFF : AudioGraph := ((AudioGraph.new 44100).add_module mF0).add_module mF1

/-- The connection `0.out0 → 1.in0`. -/
def c01 : Connection := ⟨0, 0, 1, 0⟩

/-- The connection `1.out0 → 0.in0`, closing a cycle with `c01`. -/
def c10 : Connection := ⟨1, 0, 0, 0⟩

/-- The graph after `add_connection c01`. -/
def gFF1 : AudioGraph := (gFF.add_connection c01).1

/-- The graph after `add_connection c01` and then `add_connection c10`. -/
def gFF2 : AudioGraph := (gFF1.add_connection c10).1

/-- An oscillator module with id `3`. -/
def mOsc : AudioModule := AudioModule.new 3 .Oscillator "Osc"

/-- A graph whose single node holds an oscillator unit that has
accumulated a nonzero phase (`5`). -/
def gOsc : AudioGraph :=
  { nodes := [(3, { module_id := 3
                    audio_unit := .osc 440 (1/2) 0 5
                    input_connections := []
                    output_connections := [] })]
    connections := [], sample_rate := 44100, output_node := none }

/-- An oscillator module whose parameter list is empty. -/
def mOscEmpty : AudioModule :=
  { AudioModule.new 7 .Oscillator "Bare" with parameters := [] }

/-- An impulse input: `1` at time `0`, silence afterwards. -/
def dInp : ℕ → ℚ := fun n => if n = 0 then 1 else 0

/-- A ramp input: `n + 1` at time `n`. -/
def dInpW : ℕ → ℚ := fun n => (n : ℚ) + 1

/-- A playing four-step sequencer, all steps active, two samples per
step, counter one sample before the step boundary. -/
def seqW : StepSequencer :=
  { steps := List.replicate 4 { SequenceStep.default with active := true }
    current_step := 0
    is_playing := true
    loop_enabled := true
    swing := 0
    step_resolution := .Sixteenth
    samples_per_step := 2
    sample_counter := 1
    sample_rate := 44100 }

/-! Helper lemmas. -/

/-- Looking a key up after `updateValue` applies the update exactly when
the key matches. -/
theorem NodeMap.getValue_updateValue (l : NodeMap) (k : ℕ)
    (f : AudioGraphNode → AudioGraphNode) :
    (l.updateValue k f).getValue k = (l.getValue k).map f := by
  induction l with
  | nil => rfl
  | cons e t ih =>
    by_cases h : e.1 = k
    · simp [NodeMap.updateValue, NodeMap.getValue, List.find?_cons, h]
    · simpa [NodeMap.updateValue, NodeMap.getValue, List.find?_cons, h] using ih

/-- Reading with `getD` after `set` at the same (in-bounds) index returns the new
value. -/
theorem getD_set_self (l : List ℚ) (i : ℕ) (v : ℚ) (h : i < l.length) :
    (l.set i v).getD i 0 = v := by
  induction l generalizing i with
  | nil => simp at h
  | cons a t ih =>
    cases i with
    | zero => simp
    | succ i => simpa using ih i (by simpa using h)

/-- Reading with `getD` after `set` at a different index is unchanged. -/
theorem getD_set_ne (l : List ℚ) (i j : ℕ) (v : ℚ) (h : i ≠ j) :
    (l.set i v).getD j 0 = l.getD j 0 := by
  induction l generalizing i j with
  | nil => simp
  | cons a t ih =>
    cases i with
    | zero =>
      cases j with
      | zero => exact absurd rfl h
      | succ j => simp
    | succ i =>
      cases j with
      | zero => simp
      | succ j => simpa using ih i j (fun hh => h (by rw [hh]))

/-- Reading with `getD` on an all-zero buffer returns `0` at any index. -/
theorem getD_replicate (k p : ℕ) : (List.replicate k (0 : ℚ)).getD p 0 = 0 := by
  induction k generalizing p with
  | zero => simp
  | succ k ih =>
    cases p with
    | zero => simp
    | succ p => simp

/-- Invariant of the fully wet, feedback-free delay line of `d ≥ 1`
samples: after `n` ticks the write position is `n % d`, the last `d`
inputs sit in their slots `j % d`, and slots not yet written still hold
`0`. -/
theorem delayRun_invariant (d : ℕ) (hd : 1 ≤ d) (inp : ℕ → ℚ) (n : ℕ) :
    (delayRun (delayInit d) inp n).delay_samples = d ∧
    (delayRun (delayInit d) inp n).feedback = 0 ∧
    (delayRun (delayInit d) inp n).wet = 1 ∧
    (delayRun (delayInit d) inp n).buffer.length = d ∧
    (delayRun (delayInit d) inp n).write_pos = n % d ∧
    (∀ j, j < n → n ≤ j + d →
      (delayRun (delayInit d) inp n).buffer.getD (j % d) 0 = inp j) ∧
    (∀ p, p < d → n ≤ p →
      (delayRun (delayInit d) inp n).buffer.getD p 0 = 0) := by
  induction n with
  | zero =>
    refine ⟨rfl, rfl, rfl, by simp [delayInit, delayRun],
      by simp [delayInit, delayRun], ?_, ?_⟩
    · intro j hj _
      exact absurd hj (Nat.not_lt_zero j)
    · intro p _ _
      exact getD_replicate d p
  | succ n ih =>
    obtain ⟨hds, hfb, hwet, hlen, hwp, hwin, hfresh⟩ := ih
    have hd0 : 0 < d := hd
    set s := delayRun (delayInit d) inp n with hs
    have hwplt : s.write_pos < d := by rw [hwp]; exact Nat.mod_lt _ hd0
    have hread : (if s.write_pos ≥ s.delay_samples then
        s.write_pos - s.delay_samples
        else s.buffer.length + s.write_pos - s.delay_samples) = s.write_pos := by
      have hlt : ¬ s.write_pos ≥ s.delay_samples := by omega
      rw [if_neg hlt, hds, hlen]
      omega
    have hnew : delayRun (delayInit d) inp (n + 1) =
        { s with buffer := s.buffer.set s.write_pos (inp n)
                 write_pos := (s.write_pos + 1) % d } := by
      show (s.tick (inp n)).1 = _
      simp only [SimpleDelay.tick]
      rw [hread, hfb, mul_zero, add_zero, List.length_set, hlen]
    refine ⟨by rw [hnew]; exact hds, by rw [hnew]; exact hfb,
      by rw [hnew]; exact hwet, ?_, ?_, ?_, ?_⟩
    · rw [hnew]
      show (s.buffer.set s.write_pos (inp n)).length = d
      rw [List.length_set, hlen]
    · rw [hnew]
      show (s.write_pos + 1) % d = (n + 1) % d
      rw [hwp, Nat.mod_add_mod]
    · intro j hj1 hj2
      rw [hnew]
      show (s.buffer.set s.write_pos (inp n)).getD (j % d) 0 = inp j
      rcases Nat.lt_succ_iff_lt_or_eq.mp hj1 with hjn | hjn
      · have hne : s.write_pos ≠ j % d := by
          rw [hwp]
          intro he
          have hdvd : d ∣ n - j :=
            (Nat.modEq_iff_dvd' (le_of_lt hjn)).mp he.symm
          have := Nat.le_of_dvd (by omega) hdvd
          omega
        rw [getD_set_ne _ _ _ _ hne]
        exact hwin j hjn (by omega)
      · subst hjn
        rw [← hwp, getD_set_self _ _ _ (by rw [hlen]; exact hwplt)]
    · intro p hp hnp
      rw [hnew]
      show (s.buffer.set s.write_pos (inp n)).getD p 0 = 0
      have hne : s.write_pos ≠ p := by
        rw [hwp]
        have := Nat.mod_le n d
        omega
      rw [getD_set_ne _ _ _ _ hne]
      exact hfresh p hp (by omega)

/-- The fully wet, feedback-free `d`-sample delay line delays by exactly
`d` samples: output `n` is input `n - d` once `n ≥ d`, and `0` before
that. -/
theorem delay_output_shift (d : ℕ) (hd : 1 ≤ d) (inp : ℕ → ℚ) :
    (∀ n, d ≤ n → delayOutput (delayInit d) inp n = inp (n - d)) ∧
    (∀ m, m < d → delayOutput (delayInit d) inp m = 0) := by
  constructor
  · intro n hn
    obtain ⟨hds, hfb, hwet, hlen, hwp, hwin, hfresh⟩ :=
      delayRun_invariant d hd inp n
    set s := delayRun (delayInit d) inp n with hs
    have hread : (if s.write_pos ≥ s.delay_samples then
        s.write_pos - s.delay_samples
        else s.buffer.length + s.write_pos - s.delay_samples) = s.write_pos := by
      have hwplt : s.write_pos < d := by rw [hwp]; exact Nat.mod_lt _ hd
      have hlt : ¬ s.write_pos ≥ s.delay_samples := by omega
      rw [if_neg hlt, hds, hlen]
      omega
    have hdel : s.buffer.getD s.write_pos 0 = inp (n - d) := by
      rw [hwp]
      have hmod : (n - d) % d = n % d := by
        conv_rhs => rw [← Nat.sub_add_cancel hn]
        rw [Nat.add_mod_right]
      rw [← hmod]
      exact hwin (n - d) (by omega) (by omega)
    show (s.tick (inp n)).2 = inp (n - d)
    simp only [SimpleDelay.tick]
    rw [hread, hdel, hwet]
    ring
  · intro m hm
    obtain ⟨hds, hfb, hwet, hlen, hwp, hwin, hfresh⟩ :=
      delayRun_invariant d hd inp m
    set s := delayRun (delayInit d) inp m with hs
    have hread : (if s.write_pos ≥ s.delay_samples then
        s.write_pos - s.delay_samples
        else s.buffer.length + s.write_pos - s.delay_samples) = s.write_pos := by
      have hwplt : s.write_pos < d := by rw [hwp]; exact Nat.mod_lt _ hd
      have hlt : ¬ s.write_pos ≥ s.delay_samples := by omega
      rw [if_neg hlt, hds, hlen]
      omega
    have hdel : s.buffer.getD s.write_pos 0 = 0 := by
      rw [hwp, Nat.mod_eq_of_lt hm]
      exact hfresh m hm (le_refl m)
    show (s.tick (inp m)).2 = 0
    simp only [SimpleDelay.tick]
    rw [hread, hdel, hwet]
    ring

/-- The frequency, sample rate and waveform of the sine oscillator are
unchanged by ticking. -/
theorem oscState_fields (f sr : ℝ) (n : ℕ) :
    (oscState f sr n).frequency = f ∧ (oscState f sr n).sample_rate = sr ∧
    (oscState f sr n).waveform = 0 := by
  induction n with
  | zero => exact ⟨rfl, rfl, rfl⟩
  | succ n ih =>
    obtain ⟨h1, h2, h3⟩ := ih
    refine ⟨?_, ?_, ?_⟩ <;>
      simp [oscState, MultiOscillator.tick, h1, h2, h3]

/-- One tick advances the phase by `frequency·2π/sample_rate` and reduces
it by `2π` once it reaches `2π`. -/
theorem oscState_succ_phase (f sr : ℝ) (n : ℕ) :
    (oscState f sr (n + 1)).phase =
      (if (oscState f sr n).phase + f * (2 * Real.pi) / sr ≥ 2 * Real.pi
       then (oscState f sr n).phase + f * (2 * Real.pi) / sr - 2 * Real.pi
       else (oscState f sr n).phase + f * (2 * Real.pi) / sr) := by
  obtain ⟨h1, h2, _⟩ := oscState_fields f sr n
  show ((oscState f sr n).tick.1).phase = _
  simp [MultiOscillator.tick, h1, h2]

/-- Phase invariant of the sine oscillator: after `n` ticks the phase is
`n` increments reduced by an integral number of turns, and lies in
`[0, 2π)`. -/
theorem oscState_phase_bounds (f sr : ℝ) (hf : 0 ≤ f) (hfs : f < sr) (n : ℕ) :
    ∃ k : ℤ, (oscState f sr n).phase
        = f * (2 * Real.pi) / sr * n - k * (2 * Real.pi) ∧
      0 ≤ (oscState f sr n).phase ∧ (oscState f sr n).phase < 2 * Real.pi := by
  have hsr : 0 < sr := lt_of_le_of_lt hf hfs
  have hπ : 0 < Real.pi := Real.pi_pos
  have hinc0 : 0 ≤ f * (2 * Real.pi) / sr := by positivity
  have hinclt : f * (2 * Real.pi) / sr < 2 * Real.pi := by
    rw [div_lt_iff₀ hsr]
    nlinarith
  induction n with
  | zero =>
    refine ⟨0, by simp [oscState, MultiOscillator.new], ?_, ?_⟩
    · simp [oscState, MultiOscillator.new]
    · show (0 : ℝ) < 2 * Real.pi
      positivity
  | succ n ih =>
    obtain ⟨k, hphase, h0, hlt⟩ := ih
    rw [oscState_succ_phase]
    by_cases hcase :
        (oscState f sr n).phase + f * (2 * Real.pi) / sr ≥ 2 * Real.pi
    · refine ⟨k + 1, ?_, ?_, ?_⟩
      · rw [if_pos hcase, hphase]
        push_cast
        ring
      · rw [if_pos hcase]
        linarith
      · rw [if_pos hcase]
        linarith
    · refine ⟨k, ?_, ?_, ?_⟩
      · rw [if_neg hcase, hphase]
        push_cast
        ring
      · rw [if_neg hcase]
        linarith
      · rw [if_neg hcase]
        linarith [not_le.mp hcase]

/-- The `n`-th output of the sine oscillator is the sine of the phase reached
after `n + 1` ticks. -/
theorem oscSample_eq_sin_phase (f sr : ℝ) (n : ℕ) :
    oscSample f sr n = Real.sin ((oscState f sr (n + 1)).phase) := by
  obtain ⟨h1, h2, h3⟩ := oscState_fields f sr n
  show ((oscState f sr n).tick.2) = Real.sin (((oscState f sr n).tick.1).phase)
  simp [MultiOscillator.tick, h3]

/-- Constructing `SimpleDelay::new T 0 1 sr` yields the fully wet, feedback-free delay
line of `(T * sr) as usize` samples, provided that count is at least
one. -/
theorem new_eq_delayInit (T sr : ℚ) (hd : 1 ≤ asUsize (T * sr)) :
    SimpleDelay.new T 0 1 sr = delayInit (asUsize (T * sr)) := by
  have h1 : Nat.max (asUsize (T * sr)) 1 = asUsize (T * sr) := Nat.max_eq_left hd
  simp only [SimpleDelay.new, delayInit, h1]

/-! Claim checks. -/

/-- C10: `stop()` clears the playing flag and resets both the current
step and the sample accumulator, while `pause()` clears only the playing
flag and leaves the position, the accumulator and the step data
unchanged. -/
theorem C10_stop_resets_pause_preserves (s : StepSequencer) :
    s.stop.is_playing = false ∧ s.stop.current_step = 0 ∧
    s.stop.sample_counter = 0 ∧
    s.pause.is_playing = false ∧ s.pause.current_step = s.current_step ∧
    s.pause.sample_counter = s.sample_counter ∧ s.pause.steps = s.steps := by
  simp [StepSequencer.stop, StepSequencer.pause]

/-- C5: when `min < max` and `value ∈ [min, max]`, `adjust(delta)` adds
`delta` scaled by `(max - min)` and clamps, so the result stays in
`[min, max]`, and `normalized()` lies in `[0, 1]`. -/
theorem C5_adjust_and_normalized_bounds (p : ModuleParameter) (delta : ℚ)
    (h1 : p.min < p.max) (h2 : p.min ≤ p.value) (h3 : p.value ≤ p.max) :
    ((p.adjust delta).value =
        rustClamp (p.value + delta * (p.max - p.min)) p.min p.max ∧
      p.min ≤ (p.adjust delta).value ∧ (p.adjust delta).value ≤ p.max) ∧
    (0 ≤ p.normalized ∧ p.normalized ≤ 1) := by
  refine ⟨⟨rfl, ?_, ?_⟩, ?_, ?_⟩
  · unfold ModuleParameter.adjust rustClamp
    dsimp only
    split_ifs <;> linarith
  · unfold ModuleParameter.adjust rustClamp
    dsimp only
    split_ifs <;> linarith
  · exact div_nonneg (by linarith) (by linarith)
  · rw [ModuleParameter.normalized, div_le_one (by linarith)]
    linarith

/-- Witness for C5 at the `Volume` parameter and a huge delta. -/
theorem C5_adjust_and_normalized_bounds_witness :
    ((ModuleParameter.new "Volume" (7/10) 0 1).min <
        (ModuleParameter.new "Volume" (7/10) 0 1).max ∧
      (ModuleParameter.new "Volume" (7/10) 0 1).min ≤
        (ModuleParameter.new "Volume" (7/10) 0 1).value ∧
      (ModuleParameter.new "Volume" (7/10) 0 1).value ≤
        (ModuleParameter.new "Volume" (7/10) 0 1).max) ∧
    ((ModuleParameter.new "Volume" (7/10) 0 1).min ≤
        ((ModuleParameter.new "Volume" (7/10) 0 1).adjust 5).value ∧
      ((ModuleParameter.new "Volume" (7/10) 0 1).adjust 5).value ≤
        (ModuleParameter.new "Volume" (7/10) 0 1).max) ∧
    (0 ≤ (ModuleParameter.new "Volume" (7/10) 0 1).normalized ∧
      (ModuleParameter.new "Volume" (7/10) 0 1).normalized ≤ 1) := by
  have h1 : (ModuleParameter.new "Volume" (7/10) 0 1).min <
      (ModuleParameter.new "Volume" (7/10) 0 1).max := by
    norm_num [ModuleParameter.new]
  have h2 : (ModuleParameter.new "Volume" (7/10) 0 1).min ≤
      (ModuleParameter.new "Volume" (7/10) 0 1).value := by
    norm_num [ModuleParameter.new]
  have h3 : (ModuleParameter.new "Volume" (7/10) 0 1).value ≤
      (ModuleParameter.new "Volume" (7/10) 0 1).max := by
    norm_num [ModuleParameter.new]
  have h := C5_adjust_and_normalized_bounds (ModuleParameter.new "Volume" (7/10) 0 1) 5 h1 h2 h3
  exact ⟨⟨h1, h2, h3⟩, ⟨h.1.2.1, h.1.2.2⟩, h.2⟩

/-- C9: reading a parameter by name is total — when no parameter of the
module matches the name, `get_parameter_value` returns `0.0`; as a
consequence an oscillator unit built from a descriptor lacking the
`Frequency` parameter is silently constructed with frequency `0`. -/
theorem C9_missing_parameter_reads_zero (m : AudioModule) (name : String)
    (h : ∀ p ∈ m.parameters, p.name ≠ name) :
    m.get_parameter_value name = 0 ∧
    (m.module_type = ModuleType.Oscillator → name = "Frequency" →
      AudioGraph.create_audio_unit m =
        AudioUnit64.osc 0 (m.get_parameter_value "Amplitude")
          (asI32 (m.get_parameter_value "Waveform")) 0) := by
  have hfind : m.parameters.find? (fun p => p.name == name) = none := by
    rw [List.find?_eq_none]
    intro p hp
    simpa using h p hp
  have hval : m.get_parameter_value name = 0 := by
    unfold AudioModule.get_parameter_value AudioModule.get_parameter
    rw [hfind]
    rfl
  refine ⟨hval, fun hty hname => ?_⟩
  unfold AudioGraph.create_audio_unit
  rw [hty]
  rw [hname] at hval
  rw [hval]

/-- Witness for C9: an oscillator descriptor with an empty parameter
list. -/
theorem C9_missing_parameter_reads_zero_witness :
    (∀ p ∈ mOscEmpty.parameters, p.name ≠ "Frequency") ∧
    mOscEmpty.get_parameter_value "Frequency" = 0 ∧
    AudioGraph.create_audio_unit mOscEmpty = AudioUnit64.osc 0 0 0 0 := by
  have h : ∀ p ∈ mOscEmpty.parameters, p.name ≠ "Frequency" := by
    intro p hp
    simp [mOscEmpty, AudioModule.new] at hp
  have hthm := C9_missing_parameter_reads_zero mOscEmpty "Frequency" h
  refine ⟨h, hthm.1, ?_⟩
  rw [hthm.2 rfl rfl]
  decide

/-- C2: `add_connection` fails only on a missing module reference or on
the cycle check; in the remaining cases — including duplicated tuples,
out-of-range ports and already-occupied destination ports — it succeeds
and appends the connection.  On both failure paths the graph is returned
unchanged. -/
theorem C2_add_connection_checks (g : AudioGraph) (c : Connection) :
    (g.nodes.containsKey c.from_module = false →
      g.add_connection c = (g, some ("Source module not found"))) ∧
    (g.nodes.containsKey c.from_module = true →
      g.nodes.containsKey c.to_module = false →
      g.add_connection c = (g, some ("Destination module not found"))) ∧
    (g.nodes.containsKey c.from_module = true →
      g.nodes.containsKey c.to_module = true →
      g.would_create_cycle c = true →
      g.add_connection c = (g, some ("Connection would create a cycle"))) ∧
    (g.nodes.containsKey c.from_module = true →
      g.nodes.containsKey c.to_module = true →
      g.would_create_cycle c = false →
      (g.add_connection c).2 = none ∧
      (g.add_connection c).1.connections = g.connections ++ [c] ∧
      (g.add_connection c).1.output_node = g.output_node ∧
      (g.add_connection c).1.sample_rate = g.sample_rate) := by
  refine ⟨fun h1 => ?_, fun h1 h2 => ?_, fun h1 h2 h3 => ?_, fun h1 h2 h3 => ?_⟩
  · simp [AudioGraph.add_connection, h1]
  · simp [AudioGraph.add_connection, h1, h2]
  · simp [AudioGraph.add_connection, h1, h2, h3]
  · simp [AudioGraph.add_connection, h1, h2, h3, AudioGraph.rebuild_connections]

/-- Witness for C2: adding `0.out0 → 1.in0` a second time to the graph
that already holds it — every hypothesis of the success clause still
holds, so the duplicate is appended. -/
theorem C2_add_connection_checks_witness :
    gFF1.nodes.containsKey c01.from_module = true ∧
    gFF1.nodes.containsKey c01.to_module = true ∧
    gFF1.would_create_cycle c01 = false ∧
    (gFF1.add_connection c01).2 = none ∧
    (gFF1.add_connection c01).1.connections = gFF1.connections ++ [c01] := by
  have h := (C2_add_connection_checks gFF1 c01).2.2.2 (by decide) (by decide) (by decide)
  exact ⟨by decide, by decide, by decide, h.1, h.2.1⟩

/-- Counterexample for C2: the exact tuple `0.out0 → 1.in0` is already
present in `gFF1`, yet `add_connection` accepts it again instead of
failing with `DuplicateConnection`, leaving the tuple twice in the
connection list. -/
theorem C2_duplicate_connection_accepted :
    c01 ∈ gFF1.connections ∧
    (gFF1.add_connection c01).2 = none ∧
    (gFF1.add_connection c01).1.connections = [c01, c01] := by
  decide

/-- C1 (code bug): after connecting `0.out0 → 1.in0`, the reverse
connection `1.out0 → 0.in0` is also accepted — `rebuild_connections`
never populates the `output_connections` of any node (it compares
`from_output` against the length of the freshly cleared vector), so the
reachability check sees an empty adjacency — and the resulting connection
set contains a directed cycle. -/
theorem C1_cycle_not_prevented :
    (gFF.add_connection c01).2 = none ∧
    (gFF1.add_connection c10).2 = none ∧
    gFF2.connections = [c01, c10] ∧
    connHasCycle gFF2.connections = true ∧
    (∀ e ∈ gFF2.nodes, e.2.output_connections = []) := by
  refine ⟨by decide, by decide, by decide, by decide, by decide⟩

/-- C4 (amended): `update_module` does not update the existing unit in
place — it replaces the unit of the node by a freshly constructed one
(`create_audio_unit`), whose internal DSP state is back at its initial
value; for an oscillator descriptor the fresh unit always carries phase
`0`. -/
theorem C4_update_module_reconstructs (g : AudioGraph) (m : AudioModule)
    (n : AudioGraphNode) (h : g.nodes.getValue m.id = some n) :
    (g.update_module m).nodes.getValue m.id =
      some { n with audio_unit := AudioGraph.create_audio_unit m } ∧
    (∀ m' : AudioModule, m'.module_type = ModuleType.Oscillator →
      ∃ f a w, AudioGraph.create_audio_unit m' = AudioUnit64.osc f a w 0) := by
  constructor
  · rw [AudioGraph.update_module]
    show (g.nodes.updateValue m.id _).getValue m.id = _
    rw [NodeMap.getValue_updateValue, h]
    rfl
  · intro m' hty
    unfold AudioGraph.create_audio_unit
    rw [hty]
    exact ⟨_, _, _, rfl⟩

/-- Witness for C4 on the concrete graph `gOsc`. -/
theorem C4_update_module_reconstructs_witness :
    gOsc.nodes.getValue mOsc.id =
      some { module_id := 3, audio_unit := .osc 440 (1/2) 0 5
             input_connections := [], output_connections := [] } ∧
    (gOsc.update_module mOsc).nodes.getValue mOsc.id =
      some { module_id := 3, audio_unit := AudioGraph.create_audio_unit mOsc
             input_connections := [], output_connections := [] } := by
  have h : gOsc.nodes.getValue mOsc.id =
      some { module_id := 3, audio_unit := .osc 440 (1/2) 0 5
             input_connections := [], output_connections := [] } := rfl
  exact ⟨h, (C4_update_module_reconstructs gOsc mOsc _ h).1⟩

/-- Counterexample for C4: the oscillator unit of `gOsc` has phase `5`
before the update, but after `update_module` with its own descriptor the
phase is `0` — the internal state was not preserved. -/
theorem C4_state_not_preserved :
    (gOsc.nodes.getValue 3).map (fun n => oscPhase n.audio_unit) =
      some (some 5) ∧
    ((gOsc.update_module mOsc).nodes.getValue 3).map
        (fun n => oscPhase n.audio_unit) = some (some 0) ∧
    (5 : ℚ) ≠ 0 := by
  refine ⟨rfl, rfl, by norm_num⟩

/-- Counterexample for C8: at volume `1` and pan `1/2` the unit outputs
`left = 1/2`, which differs from the equal-power value
`volume · sqrt(1 − pan) = sqrt(1/2)` claimed by the spec. -/
theorem C8_pan_not_equal_power :
    ((StereoOutput.new 1 (1/2)).tick 1).1 = 1/2 ∧
    ¬ ((((StereoOutput.new 1 (1/2)).tick 1).1 : ℚ) =
        ((1 : ℝ) * 1 * Real.sqrt (1 - 1/2) : ℝ)) := by
  have h : ((StereoOutput.new 1 (1/2)).tick 1).1 = 1/2 := by
    norm_num [StereoOutput.new, StereoOutput.tick, rustClamp]
  refine ⟨h, ?_⟩
  rw [h]
  push_cast
  intro hc
  have hsq := congrArg (fun y : ℝ => y^2) hc
  simp only [one_mul] at hsq
  rw [Real.sq_sqrt (by norm_num : (0:ℝ) ≤ 1 - 1/2)] at hsq
  norm_num at hsq

/-- C8 (amended): the Output unit applies a linear pan law —
`left = input · volume · (1 − pan)` and `right = input · volume · pan` —
and the unit built by `create_audio_unit` is independent of the
`enabled` flag, so disabling a module does not silence its unit. -/
theorem C8_output_linear_pan (x v p : ℚ) (hv0 : 0 ≤ v) (hv1 : v ≤ 1)
    (hp0 : 0 ≤ p) (hp1 : p ≤ 1) :
    (StereoOutput.new v p).tick x = (x * v * (1 - p), x * v * p) ∧
    (∀ (m : AudioModule) (b : Bool),
      AudioGraph.create_audio_unit { m with enabled := b } =
        AudioGraph.create_audio_unit m) := by
  constructor
  · have hv : rustClamp v 0 1 = v := by
      unfold rustClamp
      rw [if_neg (by linarith), if_neg (by linarith)]
    have hp : rustClamp p 0 1 = p := by
      unfold rustClamp
      rw [if_neg (by linarith), if_neg (by linarith)]
    simp [StereoOutput.new, StereoOutput.tick, hv, hp]
  · intro m b
    unfold AudioGraph.create_audio_unit AudioModule.get_parameter_value
      AudioModule.get_parameter
    rfl

/-- Witness for C8 at input `1`, volume `1`, pan `1/2`. -/
theorem C8_output_linear_pan_witness :
    (StereoOutput.new 1 (1/2)).tick 1 = (1 * 1 * (1 - 1/2), 1 * 1 * (1/2)) ∧
    AudioGraph.create_audio_unit { mOsc with enabled := false } =
      AudioGraph.create_audio_unit mOsc := by
  have h := C8_output_linear_pan 1 1 (1/2) (by norm_num) (by norm_num)
    (by norm_num) (by norm_num)
  exact ⟨h.1, h.2 mOsc false⟩

/-- C6 (amended): a delay unit created with feedback `0`, wet `1`, delay
time `T` and sample rate `sr` delays by `⌊T·sr⌋` samples (truncation, not
rounding): for every `n ≥ ⌊T·sr⌋` the `n`-th output equals input
`n − ⌊T·sr⌋`, and earlier outputs are `0` — no dry signal appears in the
output.  This holds whenever the truncated count is at least one. -/
theorem C6_delay_shifts_by_truncated_count (T sr : ℚ) (inp : ℕ → ℚ) (n : ℕ)
    (hd : 1 ≤ asUsize (T * sr)) (hn : asUsize (T * sr) ≤ n) :
    delayOutput (SimpleDelay.new T 0 1 sr) inp n = inp (n - asUsize (T * sr)) ∧
    (∀ m, m < asUsize (T * sr) →
      delayOutput (SimpleDelay.new T 0 1 sr) inp m = 0) := by
  rw [new_eq_delayInit T sr hd]
  exact ⟨(delay_output_shift (asUsize (T * sr)) hd inp).1 n hn,
    fun m hm => (delay_output_shift (asUsize (T * sr)) hd inp).2 m hm⟩

/-- Witness for C6: `T = 1/4`, `sr = 8` (two samples of delay) on the
ramp input. -/
theorem C6_delay_shifts_by_truncated_count_witness :
    asUsize ((1/4 : ℚ) * 8) = 2 ∧
    delayOutput (SimpleDelay.new (1/4) 0 1 8) dInpW 2 = dInpW 0 := by
  have h2 : asUsize ((1/4 : ℚ) * 8) = 2 := by
    norm_num [asUsize]
    rfl
  have h := (C6_delay_shifts_by_truncated_count (1/4) 8 dInpW 2
    (by rw [h2]; norm_num) (by rw [h2])).1
  rw [h2] at h
  exact ⟨h2, h⟩

/-- Predicate `should_trigger` holds exactly when the step is active and either the
probability is at least `1` or the draw is below it. -/
theorem should_trigger_iff (st : SequenceStep) (r : ℚ) :
    st.should_trigger r = true ↔
      st.active = true ∧ (1 ≤ st.probability ∨ r < st.probability) := by
  simp [SequenceStep.should_trigger, ge_iff_le]

/-- The swing-adjusted step length of the code agrees with the
`samples_per_step · (1 + swing·0.5 on odd steps)` formula whenever the
swing amount is nonnegative. -/
theorem code_step_length_eq (s : StepSequencer) (hsw : 0 ≤ s.swing) :
    (if s.swing > 0 ∧ s.current_step % 2 = 1 then
      s.samples_per_step * (1 + s.swing * (1/2))
     else s.samples_per_step) = effectiveStepLength s := by
  unfold effectiveStepLength
  rcases lt_or_eq_of_le hsw with hpos | hzero
  · by_cases hodd : s.current_step % 2 = 1
    · rw [if_pos ⟨hpos, hodd⟩, if_pos hodd]
    · rw [if_neg (fun hc => hodd hc.2), if_neg hodd, mul_one]
  · rw [← hzero]
    by_cases hodd : s.current_step % 2 = 1 <;> simp [hodd]

/-- C3 (amended): a sine oscillator with amplitude `1`, frequency `f`
and sample rate `sr` (with `0 ≤ f < sr`) produces as its `n`-th output
sample the value `sin(2π·f·(n+1)/sr)` — the phase is incremented before
the output is computed, so the series is shifted by one sample and the
first sample is `sin(2π·f/sr)`, not `0`.  The phase accumulates
`f·2π/sr` per tick and wraps, staying in `[0, 2π)`. -/
theorem C3_sine_sample_shifted_by_one (f sr : ℝ) (hf : 0 ≤ f) (hfs : f < sr) :
    (∀ n : ℕ, oscSample f sr n = Real.sin (2 * Real.pi * f * (n + 1) / sr)) ∧
    (∀ n : ℕ, 0 ≤ (oscState f sr n).phase ∧
      (oscState f sr n).phase < 2 * Real.pi) := by
  constructor
  · intro n
    obtain ⟨k, hph, _, _⟩ := oscState_phase_bounds f sr hf hfs (n + 1)
    rw [oscSample_eq_sin_phase, hph]
    push_cast
    rw [Real.sin_sub_int_mul_two_pi]
    congr 1
    ring
  · intro n
    obtain ⟨k, _, h0, hlt⟩ := oscState_phase_bounds f sr hf hfs n
    exact ⟨h0, hlt⟩

/-- Witness for C3 at `f = 1`, `sr = 4`. -/
theorem C3_sine_sample_shifted_by_one_witness :
    (0 : ℝ) ≤ 1 ∧ (1 : ℝ) < 4 ∧
    oscSample 1 4 0 = Real.sin (2 * Real.pi * 1 * ((0 : ℕ) + 1) / 4) :=
  ⟨by norm_num, by norm_num,
    (C3_sine_sample_shifted_by_one 1 4 (by norm_num) (by norm_num)).1 0⟩

/-- Counterexample for C3: at `f = 1`, `sr = 4` the first sample
(`n = 0`) is `sin(π/2) = 1`, while the claim demands
`sin(2π·f·0/sr) = 0`. -/
theorem C3_first_sample_nonzero :
    oscSample 1 4 0 = 1 ∧ Real.sin (2 * Real.pi * 1 * (0 : ℕ) / 4) = 0 ∧
    (1 : ℝ) ≠ 0 := by
  have hπ := Real.pi_pos
  have hlt : ¬ ((0 : ℝ) + 1 * (2 * Real.pi) / 4 ≥ 2 * Real.pi) := by nlinarith
  have hval : (0 : ℝ) + 1 * (2 * Real.pi) / 4 = Real.pi / 2 := by ring
  refine ⟨?_, by norm_num, one_ne_zero⟩
  show ((oscState 1 4 0).tick.2) = 1
  simp only [oscState, MultiOscillator.new, MultiOscillator.tick]
  rw [if_neg hlt, hval]
  simp [Real.sin_pi_div_two]

/-- Counterexample for C6: at `T = 3/200` and `sr = 100` the product
`T·sr = 1.5` rounds to `2` but truncates to `1`; on an impulse input the
output at time `2` is `0`, not the `1` that the claimed `round` delay would
give. -/
theorem C6_round_refuted :
    (round ((3/200 : ℚ) * 100) : ℤ) = 2 ∧
    delayOutput (SimpleDelay.new (3/200) 0 1 100) dInp 2 = 0 ∧
    dInp (2 - 2) = 1 ∧ (0 : ℚ) ≠ 1 := by
  have h1 : asUsize ((3/200 : ℚ) * 100) = 1 := by
    norm_num [asUsize]
  refine ⟨?_, ?_, by norm_num [dInp], by norm_num⟩
  · norm_num [round_eq]
  · rw [new_eq_delayInit (3/200) 100 (by rw [h1])]
    have h := (delay_output_shift (asUsize ((3/200 : ℚ) * 100))
      (by rw [h1]) dInp).1 2 (by rw [h1]; norm_num)
    rw [h1] at h ⊢
    rw [h]
    norm_num [dInp]

/-- C7: for a playing sequencer whose current step exists and whose swing
is nonnegative, each tick adds one to the accumulator; the effective step
length is `samples_per_step · (1 + swing·0.5)` exactly on odd step
indices; below the boundary nothing else changes and no event is emitted;
at the boundary an event carrying step index, note, velocity and gate
length is emitted iff the step is active and (`probability ≥ 1` or the
draw is below it), the step advances (wrapping to `0` when looping,
stopping playback otherwise), and the consumed length is subtracted from
the accumulator, carrying the remainder. -/
theorem C7_sequencer_tick_spec (s : StepSequencer) (r : ℚ)
    (hp : s.is_playing = true)
    (hcs : s.current_step < s.steps.length)
    (hsw : 0 ≤ s.swing) :
    (s.sample_counter + 1 < effectiveStepLength s →
      s.tick r = ({ s with sample_counter := s.sample_counter + 1 }, none)) ∧
    (effectiveStepLength s ≤ s.sample_counter + 1 →
      ((s.tick r).2 =
        (if (s.steps.get ⟨s.current_step, hcs⟩).active = true ∧
            (1 ≤ (s.steps.get ⟨s.current_step, hcs⟩).probability ∨
              r < (s.steps.get ⟨s.current_step, hcs⟩).probability) then
          some { step_index := s.current_step
                 note := (s.steps.get ⟨s.current_step, hcs⟩).note
                 velocity := (s.steps.get ⟨s.current_step, hcs⟩).velocity
                 gate_length := effectiveStepLength s }
         else none)) ∧
      (s.tick r).1.sample_counter =
        s.sample_counter + 1 - effectiveStepLength s ∧
      (s.tick r).1.current_step =
        (if s.current_step + 1 ≥ s.steps.length then
          (if s.loop_enabled = true then 0 else s.current_step + 1)
         else s.current_step + 1) ∧
      (s.tick r).1.is_playing =
        (if s.current_step + 1 ≥ s.steps.length ∧ s.loop_enabled = false then
          false else true) ∧
      (s.tick r).1.steps = s.steps ∧
      (s.tick r).1.swing = s.swing ∧
      (s.tick r).1.samples_per_step = s.samples_per_step) := by
  have hnp : ¬¬(s.is_playing = true) := fun hh => hh hp
  have hstep : s.steps.get? s.current_step =
      some (s.steps.get ⟨s.current_step, hcs⟩) := List.get?_eq_get hcs
  constructor
  · intro hlt
    have hcond : ¬ (s.sample_counter + 1 ≥
        (if s.swing > 0 ∧ s.current_step % 2 = 1 then
          s.samples_per_step * (1 + s.swing * (1/2))
         else s.samples_per_step)) := by
      rw [code_step_length_eq s hsw]
      exact not_le.mpr hlt
    unfold StepSequencer.tick
    rw [if_neg hnp]
    dsimp only
    rw [if_neg hcond]
  · intro hge
    have hcond : (s.sample_counter + 1 ≥
        (if s.swing > 0 ∧ s.current_step % 2 = 1 then
          s.samples_per_step * (1 + s.swing * (1/2))
         else s.samples_per_step)) := by
      rw [code_step_length_eq s hsw]
      exact hge
    have hev : ∀ L : ℚ,
        ((match s.steps.get? s.current_step with
          | some step =>
            if step.should_trigger r then
              some { step_index := s.current_step, note := step.note
                     velocity := step.velocity, gate_length := L }
            else none
          | none => none : Option SequenceEvent)) =
        (if (s.steps.get ⟨s.current_step, hcs⟩).active = true ∧
            (1 ≤ (s.steps.get ⟨s.current_step, hcs⟩).probability ∨
              r < (s.steps.get ⟨s.current_step, hcs⟩).probability) then
          some { step_index := s.current_step
                 note := (s.steps.get ⟨s.current_step, hcs⟩).note
                 velocity := (s.steps.get ⟨s.current_step, hcs⟩).velocity
                 gate_length := L }
         else none) := by
      intro L
      rw [hstep]
      exact if_congr (should_trigger_iff _ r) rfl rfl
    unfold StepSequencer.tick
    rw [if_neg hnp]
    dsimp only
    rw [if_pos hcond, code_step_length_eq s hsw, hev (effectiveStepLength s)]
    by_cases h1 : s.current_step + 1 ≥ s.steps.length
    · by_cases h2 : s.loop_enabled = true
      · rw [if_pos h1, if_pos h2]
        refine ⟨rfl, rfl, ?_, ?_, rfl, rfl, rfl⟩
        · dsimp only
          rw [if_pos h1, if_pos h2]
        · dsimp only
          rw [if_neg (fun hc => by simp [h2] at hc)]
          exact hp
      · rw [if_pos h1, if_neg h2]
        refine ⟨rfl, rfl, ?_, ?_, rfl, rfl, rfl⟩
        · dsimp only
          rw [if_pos h1, if_neg h2]
        · dsimp only
          rw [if_pos ⟨h1, by simpa using h2⟩]
    · rw [if_neg h1]
      refine ⟨rfl, rfl, ?_, ?_, rfl, rfl, rfl⟩
      · dsimp only
        rw [if_neg h1]
      · dsimp only
        rw [if_neg (fun hc => h1 hc.1)]
        exact hp

/-- Witness for C7 on a concrete playing sequencer one sample before the
step boundary: the boundary clause fires and the accumulator carries the
remainder. -/
theorem C7_sequencer_tick_spec_witness :
    seqW.is_playing = true ∧ seqW.current_step < seqW.steps.length ∧
    (0 : ℚ) ≤ seqW.swing ∧ effectiveStepLength seqW ≤ seqW.sample_counter + 1 ∧
    (seqW.tick 0).1.sample_counter =
      seqW.sample_counter + 1 - effectiveStepLength seqW := by
  have hp : seqW.is_playing = true := rfl
  have hcs : seqW.current_step < seqW.steps.length := by
    simp [seqW]
  have hsw : (0 : ℚ) ≤ seqW.swing := by norm_num [seqW]
  have hge : effectiveStepLength seqW ≤ seqW.sample_counter + 1 := by
    norm_num [effectiveStepLength, seqW]
  exact ⟨hp, hcs, hsw, hge,
    ((C7_sequencer_tick_spec seqW 0 hp hcs hsw).2 hge).2.1⟩

end Maze
